import Mathlib

/-!
# Verification of the `ljobs` job dispatcher (src/rust/src/main.rs)

`ljobs` runs one child process per task, bounded by a slot budget, collects
completions through a channel and aggregates failures.  This file shallowly
embeds the dispatcher (`master` / `wait_jobs` / `done_job` / `show_output`),
the exit-status computation in `main`, and the argv builder
(`build_argv` / `subst` and its path helpers), and proves the stated
properties about them.

Strings captured from child pipes and log text are modelled as `String`;
the argument-substitution scanner, which works on byte slices in the source,
is modelled on `List Char` (all delimiters involved are ASCII, so character
positions and byte positions coincide on the slicing boundaries used).
-/

set_option autoImplicit false

namespace Ljobs

/-- `const PROG: &str = "ljobs"`. -/
def PROG : String := "ljobs"

/-- The `Options` struct.  `maxjobs` is `usize`, `shell` is
`Option<String>` (modelled on `List Char` because the argv builder works on
character lists). -/
structure Options where
  maxjobs   : Nat
  keepgoing : Bool
  shell     : Option (List Char)
  verbose   : Bool
  dryrun    : Bool
deriving DecidableEq

/-- Result of `ExitStatus::code()` / `ExitStatus::signal()` for a reaped
child: `code n` is `code() = Some n`; `signal s` is `code() = None`,
`signal() = Some s`.  (The source `panic!`s when both are `None`, a case the
OS never produces; it is not modelled.) -/
inductive ExitSt where
  | code   (n : Int)
  | signal (s : Int)
deriving DecidableEq

/-- `waitresult: Result<ExitStatus>`; the `Err` case (wait failure) carries
the error text used in the log line. -/
abbrev WaitResult := Except String ExitSt

instance : DecidableEq WaitResult := fun x y =>
  match x, y with
  | .ok a, .ok b => decidable_of_iff (a = b) (by simp)
  | .ok _, .error _ => .isFalse (by simp)
  | .error _, .ok _ => .isFalse (by simp)
  | .error a, .error b => decidable_of_iff (a = b) (by simp)

/-- The `Job` struct.  The `Child` handle is flattened into the data the
collector reads from it: its pid (`child.id()`) and the two captured pipe
contents (`child.stdout` / `child.stderr`, each read to the end by
`show_output`). -/
structure Job where
  tasknum    : Nat
  quotedcmd  : String
  pid        : Nat
  stdoutBuf  : String
  stderrBuf  : String
  waitresult : WaitResult
deriving DecidableEq

/-- A single write performed on a real output stream. -/
inductive Wr where
  | toStdout (s : String)
  | toStderr (s : String)
deriving DecidableEq

/-- `Wr.isStderr w` holds when the write goes to standard error. -/
def Wr.isStderr : Wr → Bool
  | .toStdout _ => false
  | .toStderr _ => true

/-! ## Log-line text (the `warn!`/`print!` format strings) -/

/-- `"{}[{}]: start\t{}\n"` with `PROG`, task number, quoted command. -/
def start_line (i : Nat) (cmd : String) : String :=
  PROG ++ "[" ++ toString i ++ "]: start\t" ++ cmd ++ "\n"

/-- `"{}[{}]: done\t{}\n"`. -/
def done_line (i : Nat) (cmd : String) : String :=
  PROG ++ "[" ++ toString i ++ "]: done\t" ++ cmd ++ "\n"

/-- `"{}[{}]: exit {}\t{}\n"`. -/
def exit_line (i : Nat) (n : Int) (cmd : String) : String :=
  PROG ++ "[" ++ toString i ++ "]: exit " ++ toString n ++ "\t" ++ cmd ++ "\n"

/-- `"{}[{}]: signal {}\t{}\n"`. -/
def signal_line (i : Nat) (s : Int) (cmd : String) : String :=
  PROG ++ "[" ++ toString i ++ "]: signal " ++ toString s ++ "\t" ++ cmd ++ "\n"

/-- `"wait error pid {}: {}\n"` with `job.child.id()` and the wait error. -/
def wait_error_line (pid : Nat) (err : String) : String :=
  "wait error pid " ++ toString pid ++ ": " ++ err ++ "\n"

/-- `"{}[{}]: error\t{}: {}\n"`: the spawn-failure warning. -/
def spawn_error_line (i : Nat) (cmd err : String) : String :=
  PROG ++ "[" ++ toString i ++ "]: error\t" ++ cmd ++ ": " ++ err ++ "\n"

/-- Opening banner `"-------- {}[{}]: {} --------\n"` written by
`show_output` when `sep` is set. -/
def sep_open_line (i : Nat) (cmd : String) : String :=
  "-------- " ++ PROG ++ "[" ++ toString i ++ "]: " ++ cmd ++ " --------\n"

/-- Closing banner `"--------\n"`. -/
def sep_close_line : String := "--------\n"

/-- `fn dryrun`: `print!("[{}]\t{}\n", tasknum, quotedcmd)`. -/
def dryrun_line (tasknum : Nat) (quotedcmd : String) : String :=
  "[" ++ toString tasknum ++ "]\t" ++ quotedcmd ++ "\n"

/-! ## `show_output` and `done_job` -/

/-- `fn show_output`: reads the captured stream to the end; on `Ok(0)`
(empty) nothing is written; otherwise the contents, wrapped in banner
lines exactly when `sep` is set.  Returns the list of writes performed, in
order, on the one stream `out`. -/
def show_output (buf : String) (tasknum : Nat) (quotedcmd : String)
    (sep : Bool) : List String :=
  if buf.length = 0 then []
  else
    (if sep then [sep_open_line tasknum quotedcmd] else [])
      ++ [buf]
      ++ (if sep then [sep_close_line] else [])

/-- `fn done_job`: first `show_output` on the captured stderr (to the real
stderr, `sep = opts.verbose`), then `show_output` on the captured stdout (to
the real stdout, `sep = false`), then the match on `job.waitresult` that
logs and updates `errs` / `failedexit`.  Returns the updated
`(errs, failedexit)` and the ordered list of writes (log lines go to
stderr via `warn!`). -/
def done_job (opts : Options) (job : Job) (errs : Nat) (failedexit : Int) :
    Nat × Int × List Wr :=
  let errWrites :=
    (show_output job.stderrBuf job.tasknum job.quotedcmd opts.verbose).map
      Wr.toStderr
  let outWrites :=
    (show_output job.stdoutBuf job.tasknum job.quotedcmd false).map
      Wr.toStdout
  match job.waitresult with
  | .ok (.code c) =>
      if c = 0 then
        (errs, failedexit,
          errWrites ++ outWrites
            ++ (if opts.verbose then
                  [.toStderr (done_line job.tasknum job.quotedcmd)]
                else []))
      else
        (errs + 1, c,
          errWrites ++ outWrites
            ++ (if opts.verbose then
                  [.toStderr (exit_line job.tasknum c job.quotedcmd)]
                else []))
  | .ok (.signal sg) =>
      (errs + 1, 128 + sg,
        errWrites ++ outWrites
          ++ (if opts.verbose then
                [.toStderr (signal_line job.tasknum sg job.quotedcmd)]
              else []))
  | .error err =>
      (errs + 1, 255,
        errWrites ++ outWrites ++ [.toStderr (wait_error_line job.pid err)])

/-! ## Path helpers and argument substitution (`build_argv` / `subst`) -/

/-- `str::rfind(c)`: index of the last occurrence of `c`. -/
def rfind (c : Char) (s : List Char) : Option Nat :=
  match s.reverse.findIdx? (fun x => x = c) with
  | none => none
  | some j => some (s.length - 1 - j)

/-- `fn basename`: everything after the last `/`, or the whole string. -/
def basename (s : List Char) : List Char :=
  match rfind '/' s with
  | none => s
  | some i => s.drop (i + 1)

/-- `fn extension`: the extension of the basename including the dot, if any. -/
def extension (s : List Char) : Option (List Char) :=
  let base := basename s
  match rfind '.' base with
  | none => none
  | some i => some (base.drop i)

/-- `fn remove_extension`. -/
def remove_extension (s : List Char) : List Char :=
  match extension s with
  | none => s
  | some ext => s.take (s.length - ext.length)

/-- `fn remove_redundant_trailing_slashes`: drop trailing slashes but keep a
lone leading slash. -/
def remove_redundant_trailing_slashes (s : List Char) : List Char :=
  if h : 1 < s.length ∧ s.getLast? = some '/' then
    remove_redundant_trailing_slashes (s.take (s.length - 1))
  else s
termination_by s.length
decreasing_by simp [List.length_take]; omega

/-- `fn dirname`. -/
def dirname (s : List Char) : List Char :=
  let s1 := remove_redundant_trailing_slashes s
  match rfind '/' s1 with
  | none => ['.']
  | some 0 => ['/']
  | some i => remove_redundant_trailing_slashes (s1.take i)

/-- The `while ss.len() > 0` scanning loop of `fn subst`: `acc` is the
output built so far, `ss` the remaining input, `found` whether a recognized
token has been substituted.  Each iteration finds the first `{`, the first
`}` at or after it, and inspects the text between them; an unrecognized pair
emits a literal `{` and resumes just past the opening brace.  Returns the
final `acc ++ ss` and the `found` flag. -/
def substLoop (tasknum : Nat) (task acc ss : List Char) (found : Bool) :
    List Char × Bool :=
  if hss : ss = [] then (acc ++ ss, found)
  else
    match ss.findIdx? (fun c => c = '{') with
    | none => (acc ++ ss, found)
    | some op =>
      match (ss.drop op).findIdx? (fun c => c = '}') with
      | none => (acc ++ ss, found)
      | some close0 =>
        let close := op + close0
        let mid := (ss.take close).drop (op + 1)
        let acc1 := acc ++ ss.take op
        if mid = [] then
          substLoop tasknum task (acc1 ++ task) (ss.drop (close + 1)) true
        else if mid = ['.'] then
          substLoop tasknum task (acc1 ++ remove_extension task)
            (ss.drop (close + 1)) true
        else if mid = ['/'] then
          substLoop tasknum task (acc1 ++ basename task)
            (ss.drop (close + 1)) true
        else if mid = ['/', '/'] then
          substLoop tasknum task (acc1 ++ dirname task)
            (ss.drop (close + 1)) true
        else if mid = ['/', '.'] then
          substLoop tasknum task (acc1 ++ remove_extension (basename task))
            (ss.drop (close + 1)) true
        else if mid = ['#'] then
          substLoop tasknum task (acc1 ++ (toString tasknum).toList)
            (ss.drop (close + 1)) true
        else
          substLoop tasknum task (acc1 ++ ['{']) (ss.drop (op + 1)) found
termination_by ss.length
decreasing_by
  all_goals
    simp only [List.length_drop]
    have hpos : 0 < ss.length := List.length_pos.mpr hss
    omega

/-- `fn subst`: `Some` of the substituted string when a recognized token was
found, `None` otherwise. -/
def subst (s : List Char) (tasknum : Nat) (task : List Char) :
    Option (List Char) :=
  let r := substLoop tasknum task [] s false
  if r.2 then some r.1 else none

/-- The part of the argv pushed before the command arguments: the shell
wrapper `[shell, "-c", cmd, "-"]` when `-c` is in effect, else `[cmd]`. -/
def initial_argv (opts : Options) (cmd : List Char) : List (List Char) :=
  match opts.shell with
  | some shell => [shell, "-c".toList, cmd, "-".toList]
  | none => [cmd]

/-- `fn build_argv`: the shell wrapper (when `-c` is in effect), the
substituted command arguments, and — when no argument substituted a token —
the raw task appended at the end. -/
def build_argv (opts : Options) (cmd : List Char) (cmdargs : List (List Char))
    (tasknum : Nat) (task : List Char) : List (List Char) :=
  let argv0 : List (List Char) := initial_argv opts cmd
  let r := cmdargs.foldl
    (fun (acc : List (List Char) × Bool) arg =>
      match subst arg tasknum task with
      | some substarg => (acc.1 ++ [substarg], true)
      | none => (acc.1 ++ [arg], acc.2))
    (argv0, false)
  r.1 ++ (if r.2 then [] else [task])

/-! ## The exit-status computation of `main` -/

/-- The value of `errs as i32` for a `u32` value `n` (two's-complement
reinterpretation). -/
def i32_of_u32 (n : Nat) : Int :=
  let m : Nat := n % 2 ^ 32
  if m < 2 ^ 31 then (m : Int) else (m : Int) - 2 ^ 32

/-- The status `main` passes to `exit`:
`if keepgoing { min(254, errs as i32) } else if errs > 0 { failedexit } else { 0 }`. -/
def main_exit (keepgoing : Bool) (errs : Nat) (failedexit : Int) : Int :=
  if keepgoing then min 254 (i32_of_u32 errs)
  else if errs > 0 then failedexit
  else 0

/-! ## The dispatcher loop (`master` / `wait_jobs`) as a state machine

The `'main` loop of `fn master` is modelled as a small-step machine.  One
loop iteration is split into phases: `dispatch` pulls the next task and
processes it (dry-run print, or spawn attempt), `throttle` is the
`numjobs >= maxjobs` check that blocks for one completion
(`wait_jobs(waitall = false)`), `errCheck` is the
`errs > 0 && !keepgoing` break test, `drain` is the final
`wait_jobs(waitall = true)`, and `finished` is after `master` returns.

Task behaviour (whether the spawn succeeds, and the eventual wait result
and captured output of the child) is prescribed per task by a `TaskSpec`;
the order in which concurrently running children arrive on the completion
channel is prescribed by an `oracle` choosing, at each `recv`, which
in-flight job is delivered.  The in-flight count `numjobs` of the source is
the length of the in-flight job list. -/

/-- The behaviour of `command.spawn()` for one task: failure, or a child
with a given pid, wait result and captured stdout/stderr contents. -/
inductive SpawnRes where
  | fail (err : String)
  | ok (pid : Nat) (wres : WaitResult) (stdoutBuf stderrBuf : String)
deriving DecidableEq

/-- One task of the source, with its display string (`quote_cmd` of the
built argv, an external input here) and its prescribed spawn behaviour. -/
structure TaskSpec where
  display : String
  res     : SpawnRes
deriving DecidableEq

/-- Observable events of a run. -/
inductive Event where
  /-- The `print!("[{}]\t{}\n", ..)` of `fn dryrun`. -/
  | dryline (i : Nat) (cmd : String)
  /-- The verbose `start` log line. -/
  | startLine (i : Nat) (cmd : String)
  /-- `command.spawn()` succeeded: one watcher thread launched. -/
  | spawned (i : Nat)
  /-- `command.spawn()` failed: the spawn-error warning. -/
  | spawnError (i : Nat) (cmd err : String)
  /-- One job received from the channel and passed to `done_job`. -/
  | collected (i : Nat) (w : WaitResult)
deriving DecidableEq

/-- Control position within `master`. -/
inductive Phase where
  | dispatch
  | throttle
  | errCheck
  | drain
  | finished
deriving DecidableEq

/-- The state of a run of `master`: the local variables `tasknum`, `errs`,
`failedexit`, the in-flight jobs (those spawned and not yet received —
`numjobs` is `inflight.length`), the number of `recv`s performed so far
(used to index the oracle), the control phase, and the event trace. -/
structure MState where
  tasknum    : Nat
  inflight   : List Job
  errs       : Nat
  failedexit : Int
  recvs      : Nat
  phase      : Phase
  trace      : List Event
deriving DecidableEq

/-- The initial state of `master`:
`numjobs = 0; tasknum = 0; errs = 0; failedexit = 255`. -/
def init : MState :=
  { tasknum := 0, inflight := [], errs := 0, failedexit := 255,
    recvs := 0, phase := .dispatch, trace := [] }

/-- One `rx.recv()` followed by `done_job`: the oracle chooses which
in-flight job is delivered; it is removed from the in-flight list and the
aggregate state updated by `done_job`.  With nothing in flight
(`while *numjobs > 0` false) nothing happens.  In both cases control moves
to `next`. -/
def collectOne (opts : Options) (oracle : Nat → Nat) (st : MState)
    (next : Phase) : MState :=
  match st.inflight with
  | [] => { st with phase := next }
  | j0 :: rest =>
    let l := j0 :: rest
    let k := oracle st.recvs % l.length
    let job := l.getD k j0
    let r := done_job opts job st.errs st.failedexit
    { st with
      inflight := l.eraseIdx k,
      errs := r.1,
      failedexit := r.2.1,
      recvs := st.recvs + 1,
      phase := next,
      trace := st.trace ++ [.collected job.tasknum job.waitresult] }

/-- One step of the machine. -/
def step (opts : Options) (tasks : List TaskSpec) (oracle : Nat → Nat)
    (st : MState) : MState :=
  match st.phase with
  | .dispatch =>
    match tasks[st.tasknum]? with
    | none => { st with phase := .drain }
    | some t =>
      if opts.dryrun then
        { st with
          phase := .throttle,
          trace := st.trace ++ [.dryline st.tasknum t.display] }
      else
        let tr1 := st.trace
          ++ (if opts.verbose then [.startLine st.tasknum t.display] else [])
        match t.res with
        | .fail err =>
          { st with
            phase := .throttle,
            errs := st.errs + 1,
            trace := tr1 ++ [.spawnError st.tasknum t.display err] }
        | .ok pid w ob eb =>
          { st with
            phase := .throttle,
            inflight := st.inflight
              ++ [{ tasknum := st.tasknum, quotedcmd := t.display, pid := pid,
                    stdoutBuf := ob, stderrBuf := eb, waitresult := w }],
            trace := tr1 ++ [.spawned st.tasknum] }
  | .throttle =>
    if opts.maxjobs ≤ st.inflight.length then collectOne opts oracle st .errCheck
    else { st with phase := .errCheck }
  | .errCheck =>
    if 0 < st.errs ∧ opts.keepgoing = false then { st with phase := .drain }
    else { st with phase := .dispatch, tasknum := st.tasknum + 1 }
  | .drain =>
    match st.inflight with
    | [] => { st with phase := .finished }
    | _ :: _ => collectOne opts oracle st .drain
  | .finished => st

/-- The state after `n` steps from the start of `master`. -/
def run (opts : Options) (tasks : List TaskSpec) (oracle : Nat → Nat) :
    Nat → MState
  | 0 => init
  | n + 1 => step opts tasks oracle (run opts tasks oracle n)

/-! ## Trace statistics -/

/-- Number of `spawned` events (successful spawns / watchers launched). -/
def spawnCount (tr : List Event) : Nat :=
  tr.countP fun e => match e with | .spawned _ => true | _ => false

/-- Number of `spawnError` events (failed spawn attempts). -/
def spawnErrCount (tr : List Event) : Nat :=
  tr.countP fun e => match e with | .spawnError _ _ _ => true | _ => false

/-- Number of verbose `start` log lines. -/
def startCount (tr : List Event) : Nat :=
  tr.countP fun e => match e with | .startLine _ _ => true | _ => false

/-- Number of collected (received and `done_job`-processed) jobs. -/
def collectCount (tr : List Event) : Nat :=
  tr.countP fun e => match e with | .collected _ _ => true | _ => false

/-- Whether a wait result is a failure (anything but a clean exit 0). -/
def isFailWait : WaitResult → Bool
  | .ok (.code 0) => false
  | _ => true

/-- Number of collected jobs whose outcome is not success. -/
def collectedFailCount (tr : List Event) : Nat :=
  tr.countP fun e => match e with | .collected _ w => isFailWait w | _ => false

/-- Events produced by the dispatch phase (pulling and processing a task),
as opposed to `collected` events produced by receiving a completion. -/
def isDispatchEvent : Event → Bool
  | .collected _ _ => false
  | _ => true

/-- The expected event trace of a dry run over the given tasks, the first
carrying index `i`: one `dryline` per task, in order. -/
def dryTraceAux : Nat → List TaskSpec → List Event
  | _, [] => []
  | i, t :: ts => .dryline i t.display :: dryTraceAux (i + 1) ts

/-- The text a trace event puts on a stream (`dryline` on stdout, the rest
on stderr; `collected` stands for the writes of `done_job`, returned by
that function itself and not rendered here). -/
def renderEvent : Event → String
  | .dryline i c => dryrun_line i c
  | .startLine i c => start_line i c
  | .spawnError i c err => spawn_error_line i c err
  | .spawned _ => ""
  | .collected _ _ => ""

/-- The sublist of dispatch-phase events of a trace (everything except the
`collected` completions). -/
def dispatchEvents (tr : List Event) : List Event :=
  tr.filter fun e => isDispatchEvent e

/-- The standard-output lines a dry run prints for the given tasks, the
first carrying index `i`. -/
def dryLines : Nat → List TaskSpec → List String
  | _, [] => []
  | i, t :: ts => dryrun_line i t.display :: dryLines (i + 1) ts

/-- How many tasks have already been dry-printed when the control is at the
given phase (used only to state the dry-run invariant). -/
def dryProgress (tasks : List TaskSpec) (st : MState) : Nat :=
  match st.phase with
  | .dispatch => st.tasknum
  | .throttle => st.tasknum + 1
  | .errCheck => st.tasknum + 1
  | .drain => tasks.length
  | .finished => tasks.length

/-- An upper bound on the number of steps any run takes to reach the
`finished` phase. -/
def stepBound (tasks : List TaskSpec) : Nat := 5 * tasks.length + 6

/-- Weight of a phase in the termination measure. -/
def wPhase : Phase → Nat
  | .dispatch => 6
  | .throttle => 4
  | .errCheck => 2
  | .drain => 1
  | .finished => 0

/-- Termination measure: strictly decreases along every step of a
reachable, unfinished state. -/
def stepMeasure (tasks : List TaskSpec) (st : MState) : Nat :=
  5 * (tasks.length - st.tasknum) + st.inflight.length + wPhase st.phase

/-! ## Helper lemmas: `done_job` -/

theorem done_job_errs (opts : Options) (job : Job) (errs : Nat)
    (failedexit : Int) :
    (done_job opts job errs failedexit).1 =
      errs + (if isFailWait job.waitresult then 1 else 0) := by
  cases h : job.waitresult with
  | ok st =>
    cases st with
    | code n => by_cases hn : n = 0 <;> simp [done_job, isFailWait, h, hn]
    | signal s => simp [done_job, isFailWait, h]
  | error err => simp [done_job, isFailWait, h]

/-! ## Helper lemmas: `step` and `collectOne` characterizations -/

theorem step_phase_finished (opts : Options) (tasks : List TaskSpec)
    (oracle : Nat → Nat) (st : MState) (h : st.phase = .finished) :
    step opts tasks oracle st = st := by
  simp [step, h]

theorem step_phase_errCheck (opts : Options) (tasks : List TaskSpec)
    (oracle : Nat → Nat) (st : MState) (h : st.phase = .errCheck) :
    step opts tasks oracle st =
      if 0 < st.errs ∧ opts.keepgoing = false then { st with phase := .drain }
      else { st with phase := .dispatch, tasknum := st.tasknum + 1 } := by
  simp [step, h]

theorem step_phase_throttle (opts : Options) (tasks : List TaskSpec)
    (oracle : Nat → Nat) (st : MState) (h : st.phase = .throttle) :
    step opts tasks oracle st =
      if opts.maxjobs ≤ st.inflight.length then
        collectOne opts oracle st .errCheck
      else { st with phase := .errCheck } := by
  simp [step, h]

theorem step_dispatch_none (opts : Options) (tasks : List TaskSpec)
    (oracle : Nat → Nat) (st : MState) (h : st.phase = .dispatch)
    (ht : tasks[st.tasknum]? = none) :
    step opts tasks oracle st = { st with phase := .drain } := by
  simp [step, h, ht]

theorem step_dispatch_dry (opts : Options) (tasks : List TaskSpec)
    (oracle : Nat → Nat) (st : MState) (t : TaskSpec)
    (h : st.phase = .dispatch) (ht : tasks[st.tasknum]? = some t)
    (hd : opts.dryrun = true) :
    step opts tasks oracle st =
      { st with
        phase := .throttle,
        trace := st.trace ++ [.dryline st.tasknum t.display] } := by
  simp [step, h, ht, hd]

theorem step_dispatch_fail (opts : Options) (tasks : List TaskSpec)
    (oracle : Nat → Nat) (st : MState) (t : TaskSpec) (err : String)
    (h : st.phase = .dispatch) (ht : tasks[st.tasknum]? = some t)
    (hd : opts.dryrun = false) (hres : t.res = .fail err) :
    step opts tasks oracle st =
      { st with
        phase := .throttle,
        errs := st.errs + 1,
        trace := st.trace
          ++ (if opts.verbose then [.startLine st.tasknum t.display] else [])
          ++ [.spawnError st.tasknum t.display err] } := by
  simp [step, h, ht, hd, hres]

theorem step_dispatch_ok (opts : Options) (tasks : List TaskSpec)
    (oracle : Nat → Nat) (st : MState) (t : TaskSpec) (pid : Nat)
    (w : WaitResult) (ob eb : String)
    (h : st.phase = .dispatch) (ht : tasks[st.tasknum]? = some t)
    (hd : opts.dryrun = false) (hres : t.res = .ok pid w ob eb) :
    step opts tasks oracle st =
      { st with
        phase := .throttle,
        inflight := st.inflight
          ++ [{ tasknum := st.tasknum, quotedcmd := t.display, pid := pid,
                stdoutBuf := ob, stderrBuf := eb, waitresult := w }],
        trace := st.trace
          ++ (if opts.verbose then [.startLine st.tasknum t.display] else [])
          ++ [.spawned st.tasknum] } := by
  simp [step, h, ht, hd, hres]

theorem step_drain_nil (opts : Options) (tasks : List TaskSpec)
    (oracle : Nat → Nat) (st : MState) (h : st.phase = .drain)
    (hi : st.inflight = []) :
    step opts tasks oracle st = { st with phase := .finished } := by
  simp [step, h, hi]

theorem step_drain_cons (opts : Options) (tasks : List TaskSpec)
    (oracle : Nat → Nat) (st : MState) (j : Job) (rest : List Job)
    (h : st.phase = .drain) (hi : st.inflight = j :: rest) :
    step opts tasks oracle st = collectOne opts oracle st .drain := by
  simp [step, h, hi, collectOne]

theorem collectOne_nil (opts : Options) (oracle : Nat → Nat) (st : MState)
    (next : Phase) (hi : st.inflight = []) :
    collectOne opts oracle st next = { st with phase := next } := by
  simp [collectOne, hi]

theorem collectOne_spec (opts : Options) (oracle : Nat → Nat) (st : MState)
    (next : Phase) (hi : st.inflight ≠ []) :
    ∃ job ∈ st.inflight,
      collectOne opts oracle st next =
        { st with
          inflight :=
            st.inflight.eraseIdx (oracle st.recvs % st.inflight.length),
          errs := (done_job opts job st.errs st.failedexit).1,
          failedexit := (done_job opts job st.errs st.failedexit).2.1,
          recvs := st.recvs + 1,
          phase := next,
          trace := st.trace ++ [.collected job.tasknum job.waitresult] } := by
  rcases h : st.inflight with _ | ⟨j0, rest⟩
  · exact absurd h hi
  · refine ⟨(j0 :: rest).getD (oracle st.recvs % (j0 :: rest).length) j0,
      ?_, ?_⟩
    · have hmem : ∀ (l : List Job) (k : Nat) (d : Job), d ∈ l → l.getD k d ∈ l := by
        intro l k d hd
        rcases hk : l[k]? with _ | x
        · simpa [List.getD_eq_getElem?_getD, hk] using hd
        · have hx := List.getElem?_mem hk
          simpa [List.getD_eq_getElem?_getD, hk] using hx
      exact hmem _ _ _ (by simp)
    · simp [collectOne, h]

/-- Erasing the index delivered by the oracle removes exactly one element. -/
theorem length_eraseIdx_mod {α : Type} (l : List α) (hl : l ≠ []) (k : Nat) :
    (l.eraseIdx (k % l.length)).length = l.length - 1 := by
  have hpos : 0 < l.length := List.length_pos.mpr hl
  have hlt : k % l.length < l.length := Nat.mod_lt _ hpos
  rw [List.length_eraseIdx]
  simp [hlt]

/-! ## The slot-budget invariant -/

/-- The slot invariant: at the `throttle` check the in-flight count is at
most the budget (one spawn may just have filled the last slot); everywhere
else it is strictly below the budget. -/
def slotInv (maxjobs : Nat) (st : MState) : Prop :=
  (st.phase = .throttle → st.inflight.length ≤ maxjobs) ∧
  (st.phase ≠ .throttle → st.inflight.length < maxjobs)

theorem slotInv_step (opts : Options) (tasks : List TaskSpec)
    (oracle : Nat → Nat) (st : MState) (hmax : 1 ≤ opts.maxjobs)
    (h : slotInv opts.maxjobs st) :
    slotInv opts.maxjobs (step opts tasks oracle st) := by
  cases hph : st.phase with
  | dispatch =>
    have hlt : st.inflight.length < opts.maxjobs := h.2 (by simp [hph])
    cases ht : tasks[st.tasknum]? with
    | none =>
      rw [step_dispatch_none opts tasks oracle st hph ht]
      exact ⟨by simp, by simpa using hlt⟩
    | some t =>
      by_cases hd : opts.dryrun = true
      · rw [step_dispatch_dry opts tasks oracle st t hph ht hd]
        exact ⟨by simpa using Nat.le_of_lt hlt, by simp⟩
      · have hd' : opts.dryrun = false := by simpa using hd
        cases hres : t.res with
        | fail err =>
          rw [step_dispatch_fail opts tasks oracle st t err hph ht hd' hres]
          exact ⟨by simpa using Nat.le_of_lt hlt, by simp⟩
        | ok pid w ob eb =>
          rw [step_dispatch_ok opts tasks oracle st t pid w ob eb hph ht hd'
            hres]
          refine ⟨?_, by simp⟩
          simpa using hlt
  | throttle =>
    have hle : st.inflight.length ≤ opts.maxjobs := h.1 hph
    rw [step_phase_throttle opts tasks oracle st hph]
    by_cases hc : opts.maxjobs ≤ st.inflight.length
    · have hi : st.inflight ≠ [] := by
        intro hnil
        rw [hnil] at hc
        simp at hc
        omega
      obtain ⟨job, hjob, heq⟩ := collectOne_spec opts oracle st .errCheck hi
      rw [if_pos hc, heq]
      have hlen := length_eraseIdx_mod st.inflight hi (oracle st.recvs)
      have hpos : 0 < st.inflight.length := List.length_pos.mpr hi
      refine ⟨by simp, ?_⟩
      intro _
      simp only [MState.inflight]
      omega
    · rw [if_neg hc]
      exact ⟨by simp, fun _ => by simpa using Nat.lt_of_not_le hc⟩
  | errCheck =>
    have hlt : st.inflight.length < opts.maxjobs := h.2 (by simp [hph])
    rw [step_phase_errCheck opts tasks oracle st hph]
    split
    · exact ⟨by simp, by simpa using hlt⟩
    · exact ⟨by simp, by simpa using hlt⟩
  | drain =>
    have hlt : st.inflight.length < opts.maxjobs := h.2 (by simp [hph])
    cases hi : st.inflight with
    | nil =>
      rw [step_drain_nil opts tasks oracle st hph hi]
      exact ⟨by simp, by simpa using hlt⟩
    | cons j rest =>
      rw [step_drain_cons opts tasks oracle st j rest hph hi]
      have hne : st.inflight ≠ [] := by rw [hi]; simp
      obtain ⟨job, hjob, heq⟩ := collectOne_spec opts oracle st .drain hne
      rw [heq]
      have hlen := length_eraseIdx_mod st.inflight hne (oracle st.recvs)
      refine ⟨by simp, ?_⟩
      intro _
      simp only [MState.inflight]
      omega
  | finished =>
    rw [step_phase_finished opts tasks oracle st hph]
    exact h

theorem slotInv_run (opts : Options) (tasks : List TaskSpec)
    (oracle : Nat → Nat) (hmax : 1 ≤ opts.maxjobs) (n : Nat) :
    slotInv opts.maxjobs (run opts tasks oracle n) := by
  induction n with
  | zero => exact ⟨by simp [run, init], fun _ => by simpa [run, init] using hmax⟩
  | succ n ih => exact slotInv_step opts tasks oracle _ hmax ih

/-! ## Counting lemmas for traces -/

@[simp] theorem spawnCount_nil : spawnCount [] = 0 := rfl

@[simp] theorem spawnErrCount_nil : spawnErrCount [] = 0 := rfl

@[simp] theorem startCount_nil : startCount [] = 0 := rfl

@[simp] theorem collectCount_nil : collectCount [] = 0 := rfl

@[simp] theorem collectedFailCount_nil : collectedFailCount [] = 0 := rfl

@[simp] theorem spawnCount_append (a b : List Event) :
    spawnCount (a ++ b) = spawnCount a + spawnCount b :=
  List.countP_append _ _ _

@[simp] theorem spawnErrCount_append (a b : List Event) :
    spawnErrCount (a ++ b) = spawnErrCount a + spawnErrCount b :=
  List.countP_append _ _ _

@[simp] theorem startCount_append (a b : List Event) :
    startCount (a ++ b) = startCount a + startCount b :=
  List.countP_append _ _ _

@[simp] theorem collectCount_append (a b : List Event) :
    collectCount (a ++ b) = collectCount a + collectCount b :=
  List.countP_append _ _ _

@[simp] theorem collectedFailCount_append (a b : List Event) :
    collectedFailCount (a ++ b) =
      collectedFailCount a + collectedFailCount b :=
  List.countP_append _ _ _

@[simp] theorem spawnCount_cons_dryline (i : Nat) (c : String)
    (tr : List Event) : spawnCount (.dryline i c :: tr) = spawnCount tr := by
  simp [spawnCount, List.countP_cons]

@[simp] theorem spawnCount_cons_startLine (i : Nat) (c : String)
    (tr : List Event) : spawnCount (.startLine i c :: tr) = spawnCount tr := by
  simp [spawnCount, List.countP_cons]

@[simp] theorem spawnCount_cons_spawned (i : Nat) (tr : List Event) :
    spawnCount (.spawned i :: tr) = spawnCount tr + 1 := by
  simp [spawnCount, List.countP_cons]

@[simp] theorem spawnCount_cons_spawnError (i : Nat) (c e : String)
    (tr : List Event) :
    spawnCount (.spawnError i c e :: tr) = spawnCount tr := by
  simp [spawnCount, List.countP_cons]

@[simp] theorem spawnCount_cons_collected (i : Nat) (w : WaitResult)
    (tr : List Event) : spawnCount (.collected i w :: tr) = spawnCount tr := by
  simp [spawnCount, List.countP_cons]

@[simp] theorem spawnErrCount_cons_dryline (i : Nat) (c : String)
    (tr : List Event) :
    spawnErrCount (.dryline i c :: tr) = spawnErrCount tr := by
  simp [spawnErrCount, List.countP_cons]

@[simp] theorem spawnErrCount_cons_startLine (i : Nat) (c : String)
    (tr : List Event) :
    spawnErrCount (.startLine i c :: tr) = spawnErrCount tr := by
  simp [spawnErrCount, List.countP_cons]

@[simp] theorem spawnErrCount_cons_spawned (i : Nat) (tr : List Event) :
    spawnErrCount (.spawned i :: tr) = spawnErrCount tr := by
  simp [spawnErrCount, List.countP_cons]

@[simp] theorem spawnErrCount_cons_spawnError (i : Nat) (c e : String)
    (tr : List Event) :
    spawnErrCount (.spawnError i c e :: tr) = spawnErrCount tr + 1 := by
  simp [spawnErrCount, List.countP_cons]

@[simp] theorem spawnErrCount_cons_collected (i : Nat) (w : WaitResult)
    (tr : List Event) :
    spawnErrCount (.collected i w :: tr) = spawnErrCount tr := by
  simp [spawnErrCount, List.countP_cons]

@[simp] theorem startCount_cons_dryline (i : Nat) (c : String)
    (tr : List Event) : startCount (.dryline i c :: tr) = startCount tr := by
  simp [startCount, List.countP_cons]

@[simp] theorem startCount_cons_startLine (i : Nat) (c : String)
    (tr : List Event) :
    startCount (.startLine i c :: tr) = startCount tr + 1 := by
  simp [startCount, List.countP_cons]

@[simp] theorem startCount_cons_spawned (i : Nat) (tr : List Event) :
    startCount (.spawned i :: tr) = startCount tr := by
  simp [startCount, List.countP_cons]

@[simp] theorem startCount_cons_spawnError (i : Nat) (c e : String)
    (tr : List Event) :
    startCount (.spawnError i c e :: tr) = startCount tr := by
  simp [startCount, List.countP_cons]

@[simp] theorem startCount_cons_collected (i : Nat) (w : WaitResult)
    (tr : List Event) : startCount (.collected i w :: tr) = startCount tr := by
  simp [startCount, List.countP_cons]

@[simp] theorem collectCount_cons_dryline (i : Nat) (c : String)
    (tr : List Event) :
    collectCount (.dryline i c :: tr) = collectCount tr := by
  simp [collectCount, List.countP_cons]

@[simp] theorem collectCount_cons_startLine (i : Nat) (c : String)
    (tr : List Event) :
    collectCount (.startLine i c :: tr) = collectCount tr := by
  simp [collectCount, List.countP_cons]

@[simp] theorem collectCount_cons_spawned (i : Nat) (tr : List Event) :
    collectCount (.spawned i :: tr) = collectCount tr := by
  simp [collectCount, List.countP_cons]

@[simp] theorem collectCount_cons_spawnError (i : Nat) (c e : String)
    (tr : List Event) :
    collectCount (.spawnError i c e :: tr) = collectCount tr := by
  simp [collectCount, List.countP_cons]

@[simp] theorem collectCount_cons_collected (i : Nat) (w : WaitResult)
    (tr : List Event) :
    collectCount (.collected i w :: tr) = collectCount tr + 1 := by
  simp [collectCount, List.countP_cons]

@[simp] theorem collectedFailCount_cons_dryline (i : Nat) (c : String)
    (tr : List Event) :
    collectedFailCount (.dryline i c :: tr) = collectedFailCount tr := by
  simp [collectedFailCount, List.countP_cons]

@[simp] theorem collectedFailCount_cons_startLine (i : Nat) (c : String)
    (tr : List Event) :
    collectedFailCount (.startLine i c :: tr) = collectedFailCount tr := by
  simp [collectedFailCount, List.countP_cons]

@[simp] theorem collectedFailCount_cons_spawned (i : Nat) (tr : List Event) :
    collectedFailCount (.spawned i :: tr) = collectedFailCount tr := by
  simp [collectedFailCount, List.countP_cons]

@[simp] theorem collectedFailCount_cons_spawnError (i : Nat) (c e : String)
    (tr : List Event) :
    collectedFailCount (.spawnError i c e :: tr) = collectedFailCount tr := by
  simp [collectedFailCount, List.countP_cons]

@[simp] theorem collectedFailCount_cons_collected (i : Nat) (w : WaitResult)
    (tr : List Event) :
    collectedFailCount (.collected i w :: tr) =
      collectedFailCount tr + (if isFailWait w then 1 else 0) := by
  simp [collectedFailCount, List.countP_cons]

/-! ## The per-step trace delta

One lemma characterizing what any single step appends to the trace and how
the counters move with it; the per-claim invariants all follow from it. -/

theorem step_delta (opts : Options) (tasks : List TaskSpec)
    (oracle : Nat → Nat) (st : MState) :
    ∃ tl,
      (step opts tasks oracle st).trace = st.trace ++ tl ∧
      (step opts tasks oracle st).errs =
        st.errs + collectedFailCount tl + spawnErrCount tl ∧
      startCount tl =
        (if opts.verbose then spawnCount tl + spawnErrCount tl else 0) ∧
      (step opts tasks oracle st).inflight.length + collectCount tl =
        st.inflight.length + spawnCount tl ∧
      (st.phase ≠ .dispatch → ∀ e ∈ tl, isDispatchEvent e = false) ∧
      (0 < st.errs → opts.keepgoing = false →
        (step opts tasks oracle st).tasknum = st.tasknum) := by
  have hcollect : ∀ (next : Phase),
      ∃ tl,
        (collectOne opts oracle st next).trace = st.trace ++ tl ∧
        (collectOne opts oracle st next).errs =
          st.errs + collectedFailCount tl + spawnErrCount tl ∧
        startCount tl =
          (if opts.verbose then spawnCount tl + spawnErrCount tl else 0) ∧
        (collectOne opts oracle st next).inflight.length + collectCount tl =
          st.inflight.length + spawnCount tl ∧
        (∀ e ∈ tl, isDispatchEvent e = false) ∧
        (collectOne opts oracle st next).tasknum = st.tasknum := by
    intro next
    by_cases hi0 : st.inflight = []
    · rw [collectOne_nil opts oracle st next hi0]
      exact ⟨[], by simp, by simp, by simp, by simp, by simp, by simp⟩
    · obtain ⟨job, hjob, heq⟩ := collectOne_spec opts oracle st next hi0
      rw [heq]
      have hlen := length_eraseIdx_mod st.inflight hi0 (oracle st.recvs)
      have hpos : 0 < st.inflight.length := List.length_pos.mpr hi0
      refine ⟨[.collected job.tasknum job.waitresult],
        by simp, ?_, by simp, ?_, ?_, by simp⟩
      · show (done_job opts job st.errs st.failedexit).1 = _
        rw [done_job_errs]
        simp
      · show (st.inflight.eraseIdx
            (oracle st.recvs % st.inflight.length)).length + _ = _
        rw [hlen]
        simp
        omega
      · intro e he
        simp at he
        subst he
        rfl
  cases hph : st.phase with
  | dispatch =>
    cases ht : tasks[st.tasknum]? with
    | none =>
      rw [step_dispatch_none opts tasks oracle st hph ht]
      exact ⟨[], by simp, by simp, by simp, by simp, by simp, by simp⟩
    | some t =>
      by_cases hd : opts.dryrun = true
      · rw [step_dispatch_dry opts tasks oracle st t hph ht hd]
        exact ⟨[.dryline st.tasknum t.display],
          by simp, by simp, by simp, by simp, by simp, by simp⟩
      · have hd' : opts.dryrun = false := by simpa using hd
        cases hres : t.res with
        | fail err =>
          rw [step_dispatch_fail opts tasks oracle st t err hph ht hd' hres]
          refine ⟨(if opts.verbose then [.startLine st.tasknum t.display]
              else []) ++ [.spawnError st.tasknum t.display err],
            by simp, ?_, ?_, ?_, by simp, by simp⟩
          · by_cases hv : opts.verbose = true <;> simp [hv]
          · by_cases hv : opts.verbose = true <;> simp [hv]
          · by_cases hv : opts.verbose = true <;> simp [hv]
        | ok pid w ob eb =>
          rw [step_dispatch_ok opts tasks oracle st t pid w ob eb hph ht hd'
            hres]
          refine ⟨(if opts.verbose then [.startLine st.tasknum t.display]
              else []) ++ [.spawned st.tasknum],
            by simp, ?_, ?_, ?_, by simp, by simp⟩
          · by_cases hv : opts.verbose = true <;> simp [hv]
          · by_cases hv : opts.verbose = true <;> simp [hv]
          · by_cases hv : opts.verbose = true <;> simp [hv]
  | throttle =>
    rw [step_phase_throttle opts tasks oracle st hph]
    by_cases hc : opts.maxjobs ≤ st.inflight.length
    · rw [if_pos hc]
      obtain ⟨tl, h1, h2, h3, h4, h5, h6⟩ := hcollect .errCheck
      exact ⟨tl, h1, h2, h3, h4, fun _ => h5, fun _ _ => h6⟩
    · rw [if_neg hc]
      exact ⟨[], by simp, by simp, by simp, by simp, by simp, by simp⟩
  | errCheck =>
    rw [step_phase_errCheck opts tasks oracle st hph]
    by_cases hc : 0 < st.errs ∧ opts.keepgoing = false
    · rw [if_pos hc]
      exact ⟨[], by simp, by simp, by simp, by simp, by simp, by simp⟩
    · rw [if_neg hc]
      refine ⟨[], by simp, by simp, by simp, by simp, by simp, ?_⟩
      intro he hkg
      exact absurd ⟨he, hkg⟩ hc
  | drain =>
    by_cases hi0 : st.inflight = []
    · rw [step_drain_nil opts tasks oracle st hph hi0]
      exact ⟨[], by simp, by simp, by simp, by simp, by simp, by simp⟩
    · obtain ⟨j0, rest, hi⟩ := List.exists_cons_of_ne_nil hi0
      rw [step_drain_cons opts tasks oracle st j0 rest hph hi]
      obtain ⟨tl, h1, h2, h3, h4, h5, h6⟩ := hcollect .drain
      exact ⟨tl, h1, h2, h3, h4, fun _ => h5, fun _ _ => h6⟩
  | finished =>
    rw [step_phase_finished opts tasks oracle st hph]
    exact ⟨[], by simp, by simp, by simp, by simp, by simp, by simp⟩

/-! ## Run-level invariants derived from the step delta -/

theorem run_succ (opts : Options) (tasks : List TaskSpec)
    (oracle : Nat → Nat) (n : Nat) :
    run opts tasks oracle (n + 1) = step opts tasks oracle
      (run opts tasks oracle n) := rfl

/-- The error counter always equals collected failures plus spawn
failures. -/
theorem errs_counts_run (opts : Options) (tasks : List TaskSpec)
    (oracle : Nat → Nat) (n : Nat) :
    (run opts tasks oracle n).errs =
      collectedFailCount (run opts tasks oracle n).trace
        + spawnErrCount (run opts tasks oracle n).trace := by
  induction n with
  | zero => simp [run, init]
  | succ n ih =>
    obtain ⟨tl, h1, h2, _, _, _, _⟩ :=
      step_delta opts tasks oracle (run opts tasks oracle n)
    rw [run_succ, h2, h1, ih]
    simp
    omega

/-- The number of `start` log lines always equals the number of spawn
attempts when verbose, and is zero otherwise. -/
theorem start_counts_run (opts : Options) (tasks : List TaskSpec)
    (oracle : Nat → Nat) (n : Nat) :
    startCount (run opts tasks oracle n).trace =
      (if opts.verbose then
        spawnCount (run opts tasks oracle n).trace
          + spawnErrCount (run opts tasks oracle n).trace
       else 0) := by
  induction n with
  | zero => simp [run, init]
  | succ n ih =>
    obtain ⟨tl, h1, _, h3, _, _, _⟩ :=
      step_delta opts tasks oracle (run opts tasks oracle n)
    rw [run_succ, h1]
    by_cases hv : opts.verbose = true <;>
      simp [hv] at ih h3 ⊢ <;> omega

/-- Every spawned job is either collected or still in flight. -/
theorem spawn_counts_run (opts : Options) (tasks : List TaskSpec)
    (oracle : Nat → Nat) (n : Nat) :
    spawnCount (run opts tasks oracle n).trace =
      collectCount (run opts tasks oracle n).trace
        + (run opts tasks oracle n).inflight.length := by
  induction n with
  | zero => simp [run, init]
  | succ n ih =>
    obtain ⟨tl, h1, _, _, h4, _, _⟩ :=
      step_delta opts tasks oracle (run opts tasks oracle n)
    rw [run_succ, h1]
    simp
    omega

/-- The error counter never decreases. -/
theorem errs_mono_run (opts : Options) (tasks : List TaskSpec)
    (oracle : Nat → Nat) (n m : Nat) :
    (run opts tasks oracle n).errs ≤ (run opts tasks oracle (n + m)).errs := by
  induction m with
  | zero => exact Nat.le_refl _
  | succ m ih =>
    obtain ⟨tl, _, h2, _, _, _, _⟩ :=
      step_delta opts tasks oracle (run opts tasks oracle (n + m))
    have : run opts tasks oracle (n + (m + 1)) =
        step opts tasks oracle (run opts tasks oracle (n + m)) := rfl
    rw [this, h2]
    omega

/-- In a fail-fast run, control is never back at the dispatch phase with a
recorded failure. -/
theorem dispatch_errs_zero (opts : Options) (tasks : List TaskSpec)
    (oracle : Nat → Nat) (hkg : opts.keepgoing = false) (n : Nat) :
    (run opts tasks oracle n).phase = .dispatch →
      (run opts tasks oracle n).errs = 0 := by
  induction n with
  | zero => intro _; simp [run, init]
  | succ n ih =>
    rw [run_succ]
    set st := run opts tasks oracle n with hst
    cases hph : st.phase with
    | dispatch =>
      cases ht : tasks[st.tasknum]? with
      | none => rw [step_dispatch_none opts tasks oracle st hph ht]; simp
      | some t =>
        by_cases hd : opts.dryrun = true
        · rw [step_dispatch_dry opts tasks oracle st t hph ht hd]; simp
        · have hd' : opts.dryrun = false := by simpa using hd
          cases hres : t.res with
          | fail err =>
            rw [step_dispatch_fail opts tasks oracle st t err hph ht hd' hres]
            simp
          | ok pid w ob eb =>
            rw [step_dispatch_ok opts tasks oracle st t pid w ob eb hph ht
              hd' hres]
            simp
    | throttle =>
      rw [step_phase_throttle opts tasks oracle st hph]
      by_cases hc : opts.maxjobs ≤ st.inflight.length
      · rw [if_pos hc]
        by_cases hi0 : st.inflight = []
        · rw [collectOne_nil opts oracle st .errCheck hi0]; simp
        · obtain ⟨job, _, heq⟩ := collectOne_spec opts oracle st .errCheck hi0
          rw [heq]; simp
      · rw [if_neg hc]; simp
    | errCheck =>
      rw [step_phase_errCheck opts tasks oracle st hph]
      by_cases hc : 0 < st.errs ∧ opts.keepgoing = false
      · rw [if_pos hc]; simp
      · rw [if_neg hc]
        intro _
        show st.errs = 0
        rcases Nat.eq_zero_or_pos st.errs with h0 | hpos
        · exact h0
        · exact absurd ⟨hpos, hkg⟩ hc
    | drain =>
      by_cases hi0 : st.inflight = []
      · rw [step_drain_nil opts tasks oracle st hph hi0]; simp
      · obtain ⟨j0, rest, hi⟩ := List.exists_cons_of_ne_nil hi0
        rw [step_drain_cons opts tasks oracle st j0 rest hph hi]
        obtain ⟨job, _, heq⟩ := collectOne_spec opts oracle st .drain hi0
        rw [heq]; simp
    | finished =>
      rw [step_phase_finished opts tasks oracle st hph]
      intro hc
      rw [hph] at hc
      exact absurd hc (by simp)

/-- Once a failure is recorded in a fail-fast run, no further dispatch
event is appended and the task counter is frozen. -/
theorem failfast_freeze (opts : Options) (tasks : List TaskSpec)
    (oracle : Nat → Nat) (hkg : opts.keepgoing = false) (n m : Nat)
    (he : 0 < (run opts tasks oracle n).errs) :
    dispatchEvents (run opts tasks oracle (n + m)).trace =
      dispatchEvents (run opts tasks oracle n).trace ∧
    (run opts tasks oracle (n + m)).tasknum =
      (run opts tasks oracle n).tasknum := by
  induction m with
  | zero => exact ⟨rfl, rfl⟩
  | succ m ih =>
    have he' : 0 < (run opts tasks oracle (n + m)).errs :=
      Nat.lt_of_lt_of_le he (errs_mono_run opts tasks oracle n m)
    have hph : (run opts tasks oracle (n + m)).phase ≠ .dispatch := by
      intro hd
      have := dispatch_errs_zero opts tasks oracle hkg (n + m) hd
      omega
    obtain ⟨tl, h1, _, _, _, h5, h6⟩ :=
      step_delta opts tasks oracle (run opts tasks oracle (n + m))
    have hstep : run opts tasks oracle (n + (m + 1)) =
        step opts tasks oracle (run opts tasks oracle (n + m)) := rfl
    constructor
    · rw [hstep, h1, dispatchEvents, List.filter_append]
      have hnil : tl.filter (fun e => isDispatchEvent e) = [] := by
        rw [List.filter_eq_nil]
        intro e hme
        simp [h5 hph e hme]
      rw [hnil, List.append_nil]
      exact ih.1
    · rw [hstep, h6 he' hkg]
      exact ih.2

/-! ## Termination of the run -/

/-- In the middle of a loop iteration the task counter is still a valid
index. -/
theorem taskbound_run (opts : Options) (tasks : List TaskSpec)
    (oracle : Nat → Nat) (n : Nat) :
    ((run opts tasks oracle n).phase = .throttle ∨
     (run opts tasks oracle n).phase = .errCheck) →
      (run opts tasks oracle n).tasknum < tasks.length := by
  induction n with
  | zero => intro h; rcases h with h | h <;> simp [run, init] at h
  | succ n ih =>
    rw [run_succ]
    set st := run opts tasks oracle n with hst
    cases hph : st.phase with
    | dispatch =>
      cases ht : tasks[st.tasknum]? with
      | none =>
        rw [step_dispatch_none opts tasks oracle st hph ht]
        intro h; rcases h with h | h <;> simp at h
      | some t =>
        have hlt : st.tasknum < tasks.length := by
          rcases List.getElem?_eq_some.mp ht with ⟨h, _⟩
          exact h
        by_cases hd : opts.dryrun = true
        · rw [step_dispatch_dry opts tasks oracle st t hph ht hd]
          intro _; exact hlt
        · have hd' : opts.dryrun = false := by simpa using hd
          cases hres : t.res with
          | fail err =>
            rw [step_dispatch_fail opts tasks oracle st t err hph ht hd' hres]
            intro _; exact hlt
          | ok pid w ob eb =>
            rw [step_dispatch_ok opts tasks oracle st t pid w ob eb hph ht
              hd' hres]
            intro _; exact hlt
    | throttle =>
      have hlt : st.tasknum < tasks.length := ih (Or.inl hph)
      rw [step_phase_throttle opts tasks oracle st hph]
      by_cases hc : opts.maxjobs ≤ st.inflight.length
      · rw [if_pos hc]
        by_cases hi0 : st.inflight = []
        · rw [collectOne_nil opts oracle st .errCheck hi0]
          intro _; exact hlt
        · obtain ⟨job, _, heq⟩ := collectOne_spec opts oracle st .errCheck hi0
          rw [heq]
          intro _; exact hlt
      · rw [if_neg hc]
        intro _; exact hlt
    | errCheck =>
      rw [step_phase_errCheck opts tasks oracle st hph]
      by_cases hc : 0 < st.errs ∧ opts.keepgoing = false
      · rw [if_pos hc]
        intro h; rcases h with h | h <;> simp at h
      · rw [if_neg hc]
        intro h; rcases h with h | h <;> simp at h
    | drain =>
      by_cases hi0 : st.inflight = []
      · rw [step_drain_nil opts tasks oracle st hph hi0]
        intro h; rcases h with h | h <;> simp at h
      · obtain ⟨j0, rest, hi⟩ := List.exists_cons_of_ne_nil hi0
        rw [step_drain_cons opts tasks oracle st j0 rest hph hi]
        obtain ⟨job, _, heq⟩ := collectOne_spec opts oracle st .drain hi0
        rw [heq]
        intro h; rcases h with h | h <;> simp at h
    | finished =>
      rw [step_phase_finished opts tasks oracle st hph]
      intro h; rw [hph] at h; rcases h with h | h <;> simp at h

/-- Any unfinished reachable state strictly decreases the measure. -/
theorem measure_dec (opts : Options) (tasks : List TaskSpec)
    (oracle : Nat → Nat) (st : MState)
    (hb : (st.phase = .throttle ∨ st.phase = .errCheck) →
      st.tasknum < tasks.length)
    (hfin : st.phase ≠ .finished) :
    stepMeasure tasks (step opts tasks oracle st) < stepMeasure tasks st := by
  cases hph : st.phase with
  | dispatch =>
    cases ht : tasks[st.tasknum]? with
    | none =>
      rw [step_dispatch_none opts tasks oracle st hph ht]
      simp [stepMeasure, wPhase, hph] <;> omega
    | some t =>
      by_cases hd : opts.dryrun = true
      · rw [step_dispatch_dry opts tasks oracle st t hph ht hd]
        simp [stepMeasure, wPhase, hph] <;> omega
      · have hd' : opts.dryrun = false := by simpa using hd
        cases hres : t.res with
        | fail err =>
          rw [step_dispatch_fail opts tasks oracle st t err hph ht hd' hres]
          simp [stepMeasure, wPhase, hph] <;> omega
        | ok pid w ob eb =>
          rw [step_dispatch_ok opts tasks oracle st t pid w ob eb hph ht hd'
            hres]
          simp [stepMeasure, wPhase, hph] <;> omega
  | throttle =>
    rw [step_phase_throttle opts tasks oracle st hph]
    by_cases hc : opts.maxjobs ≤ st.inflight.length
    · rw [if_pos hc]
      by_cases hi0 : st.inflight = []
      · rw [collectOne_nil opts oracle st .errCheck hi0]
        simp [stepMeasure, wPhase, hph] <;> omega
      · obtain ⟨job, _, heq⟩ := collectOne_spec opts oracle st .errCheck hi0
        rw [heq]
        have hlen := length_eraseIdx_mod st.inflight hi0 (oracle st.recvs)
        simp [stepMeasure, wPhase, hph] <;> omega
    · rw [if_neg hc]
      simp [stepMeasure, wPhase, hph] <;> omega
  | errCheck =>
    have hlt : st.tasknum < tasks.length := hb (Or.inr hph)
    rw [step_phase_errCheck opts tasks oracle st hph]
    by_cases hc : 0 < st.errs ∧ opts.keepgoing = false
    · rw [if_pos hc]
      simp [stepMeasure, wPhase, hph] <;> omega
    · rw [if_neg hc]
      simp [stepMeasure, wPhase, hph] <;> omega
  | drain =>
    by_cases hi0 : st.inflight = []
    · rw [step_drain_nil opts tasks oracle st hph hi0]
      simp [stepMeasure, wPhase, hph] <;> omega
    · obtain ⟨j0, rest, hi⟩ := List.exists_cons_of_ne_nil hi0
      rw [step_drain_cons opts tasks oracle st j0 rest hph hi]
      obtain ⟨job, _, heq⟩ := collectOne_spec opts oracle st .drain hi0
      rw [heq]
      have hlen := length_eraseIdx_mod st.inflight hi0 (oracle st.recvs)
      have hpos : 0 < st.inflight.length := List.length_pos.mpr hi0
      simp [stepMeasure, wPhase, hph] <;> omega
  | finished => exact absurd hph hfin

/-- Every run reaches the `finished` phase within `stepBound tasks` steps. -/
theorem run_reaches_finished (opts : Options) (tasks : List TaskSpec)
    (oracle : Nat → Nat) :
    (run opts tasks oracle (stepBound tasks)).phase = .finished := by
  have key : ∀ n, (run opts tasks oracle n).phase = .finished ∨
      stepMeasure tasks (run opts tasks oracle n) + n ≤ stepBound tasks := by
    intro n
    induction n with
    | zero =>
      right
      simp [run, init, stepMeasure, wPhase, stepBound]
    | succ n ih =>
      by_cases hf : (run opts tasks oracle n).phase = .finished
      · left
        rw [run_succ, step_phase_finished _ _ _ _ hf]
        exact hf
      · rcases ih with hfin | hm
        · exact absurd hfin hf
        · right
          have hdec := measure_dec opts tasks oracle (run opts tasks oracle n)
            (taskbound_run opts tasks oracle n) hf
          rw [run_succ]
          omega
  rcases key (stepBound tasks) with hf | hm
  · exact hf
  · have hz : stepMeasure tasks (run opts tasks oracle (stepBound tasks)) = 0 := by
      omega
    cases hph : (run opts tasks oracle (stepBound tasks)).phase <;>
      first
        | rfl
        | (exfalso; rw [stepMeasure, hph] at hz; simp [wPhase] at hz)

/-- Once the run is finished its state never changes again. -/
theorem run_stable (opts : Options) (tasks : List TaskSpec)
    (oracle : Nat → Nat) (N : Nat)
    (h : (run opts tasks oracle N).phase = .finished) (m : Nat) :
    run opts tasks oracle (N + m) = run opts tasks oracle N := by
  induction m with
  | zero => rfl
  | succ m ih =>
    have : N + (m + 1) = (N + m) + 1 := rfl
    rw [this, run_succ, ih, step_phase_finished _ _ _ _ h]

/-- A finished run has drained all in-flight jobs. -/
theorem finished_inflight_nil (opts : Options) (tasks : List TaskSpec)
    (oracle : Nat → Nat) (n : Nat) :
    (run opts tasks oracle n).phase = .finished →
      (run opts tasks oracle n).inflight = [] := by
  induction n with
  | zero => intro h; simp [run, init] at h
  | succ n ih =>
    rw [run_succ]
    set st := run opts tasks oracle n with hst
    cases hph : st.phase with
    | dispatch =>
      cases ht : tasks[st.tasknum]? with
      | none => rw [step_dispatch_none opts tasks oracle st hph ht]; simp
      | some t =>
        by_cases hd : opts.dryrun = true
        · rw [step_dispatch_dry opts tasks oracle st t hph ht hd]; simp
        · have hd' : opts.dryrun = false := by simpa using hd
          cases hres : t.res with
          | fail err =>
            rw [step_dispatch_fail opts tasks oracle st t err hph ht hd' hres]
            simp
          | ok pid w ob eb =>
            rw [step_dispatch_ok opts tasks oracle st t pid w ob eb hph ht
              hd' hres]
            simp
    | throttle =>
      rw [step_phase_throttle opts tasks oracle st hph]
      by_cases hc : opts.maxjobs ≤ st.inflight.length
      · rw [if_pos hc]
        by_cases hi0 : st.inflight = []
        · rw [collectOne_nil opts oracle st .errCheck hi0]; simp
        · obtain ⟨job, _, heq⟩ := collectOne_spec opts oracle st .errCheck hi0
          rw [heq]; simp
      · rw [if_neg hc]; simp
    | errCheck =>
      rw [step_phase_errCheck opts tasks oracle st hph]
      by_cases hc : 0 < st.errs ∧ opts.keepgoing = false
      · rw [if_pos hc]; simp
      · rw [if_neg hc]; simp
    | drain =>
      by_cases hi0 : st.inflight = []
      · rw [step_drain_nil opts tasks oracle st hph hi0]
        intro _
        exact hi0
      · obtain ⟨j0, rest, hi⟩ := List.exists_cons_of_ne_nil hi0
        rw [step_drain_cons opts tasks oracle st j0 rest hph hi]
        obtain ⟨job, _, heq⟩ := collectOne_spec opts oracle st .drain hi0
        rw [heq]; simp
    | finished =>
      rw [step_phase_finished opts tasks oracle st hph]
      intro _
      exact ih hph

/-! ## Claim C1 -/

/-- C1: the final process exit status is computed from the aggregate state
as: if keep-going is enabled, `min(254, errorCount)` (so 0 errors yields 0);
otherwise, if `errorCount > 0`, the last failing exit code recorded by the
collector; otherwise 0.  (The hypothesis keeps the `u32`-to-`i32` cast of
the source the identity; the error count is bounded by the number of
collected jobs in any run.) -/
theorem exit_status_formula (kg : Bool) (errs : Nat) (failedexit : Int)
    (h : errs < 2 ^ 31) :
    main_exit kg errs failedexit =
      if kg then min 254 (errs : Int)
      else if 0 < errs then failedexit
      else 0 := by
  have h1 : errs % 2 ^ 32 = errs := Nat.mod_eq_of_lt (by omega)
  simp only [main_exit, i32_of_u32, h1]
  have h2 : errs < 2147483648 := by omega
  simp [h2]

theorem exit_status_formula_witness :
    (2 < 2 ^ 31) ∧
      main_exit true 2 7 =
        (if true then min 254 ((2 : Nat) : Int)
         else if 0 < 2 then 7 else 0) :=
  ⟨by norm_num, exit_status_formula true 2 7 (by norm_num)⟩

/-! ## Claim C2 -/

/-- C2: for every slot budget `N ≥ 1` and every task sequence, at every
point of the run the number of spawned child processes not yet collected
(the in-flight count) never exceeds `N` — for any completion order. -/
theorem inflight_never_exceeds_budget (opts : Options)
    (tasks : List TaskSpec) (oracle : Nat → Nat) (hmax : 1 ≤ opts.maxjobs)
    (n : Nat) :
    (run opts tasks oracle n).inflight.length ≤ opts.maxjobs := by
  have h := slotInv_run opts tasks oracle hmax n
  by_cases hph : (run opts tasks oracle n).phase = .throttle
  · exact h.1 hph
  · exact Nat.le_of_lt (h.2 hph)

theorem inflight_never_exceeds_budget_witness :
    1 ≤ (⟨1, false, none, false, false⟩ : Options).maxjobs ∧
      (run ⟨1, false, none, false, false⟩
        [⟨"a", .ok 1 (.ok (.code 0)) "" ""⟩,
         ⟨"b", .ok 2 (.ok (.code 0)) "" ""⟩]
        (fun _ => 0) 4).inflight.length ≤
        (⟨1, false, none, false, false⟩ : Options).maxjobs :=
  ⟨by decide,
    inflight_never_exceeds_budget _ _ _ (by decide) 4⟩

/-! ## Claim C3 -/

/-- C3: with keep-going disabled, after a failure has been recorded in the
aggregate state the dispatcher pulls no further task and spawns nothing
more (the dispatch-event part of the trace and the task counter are frozen
from that point on), while all already-spawned jobs are still drained:
the run finishes with an empty in-flight list and every spawned job
collected. -/
theorem failfast_stops_dispatch_and_drains (opts : Options)
    (tasks : List TaskSpec) (oracle : Nat → Nat)
    (hkg : opts.keepgoing = false) :
    (∀ n m, 0 < (run opts tasks oracle n).errs →
      dispatchEvents (run opts tasks oracle (n + m)).trace =
        dispatchEvents (run opts tasks oracle n).trace ∧
      (run opts tasks oracle (n + m)).tasknum =
        (run opts tasks oracle n).tasknum) ∧
    (run opts tasks oracle (stepBound tasks)).phase = .finished ∧
    (run opts tasks oracle (stepBound tasks)).inflight = [] ∧
    collectCount (run opts tasks oracle (stepBound tasks)).trace =
      spawnCount (run opts tasks oracle (stepBound tasks)).trace := by
  have hfin := run_reaches_finished opts tasks oracle
  have hnil := finished_inflight_nil opts tasks oracle (stepBound tasks) hfin
  refine ⟨fun n m he => failfast_freeze opts tasks oracle hkg n m he,
    hfin, hnil, ?_⟩
  have h := spawn_counts_run opts tasks oracle (stepBound tasks)
  rw [hnil] at h
  simpa using h.symm

theorem failfast_stops_dispatch_and_drains_witness :
    ((⟨1, false, none, false, false⟩ : Options).keepgoing = false) ∧
    0 < (run ⟨1, false, none, false, false⟩
      [⟨"a", .ok 1 (.ok (.code 3)) "" ""⟩, ⟨"b", .ok 2 (.ok (.code 0)) "" ""⟩]
      (fun _ => 0) 2).errs ∧
    dispatchEvents (run ⟨1, false, none, false, false⟩
      [⟨"a", .ok 1 (.ok (.code 3)) "" ""⟩, ⟨"b", .ok 2 (.ok (.code 0)) "" ""⟩]
      (fun _ => 0) (2 + 9)).trace =
      dispatchEvents (run ⟨1, false, none, false, false⟩
        [⟨"a", .ok 1 (.ok (.code 3)) "" ""⟩,
         ⟨"b", .ok 2 (.ok (.code 0)) "" ""⟩]
        (fun _ => 0) 2).trace :=
  ⟨rfl, by decide,
    ((failfast_stops_dispatch_and_drains _ _ _ rfl).1 2 9 (by decide)).1⟩

/-! ## Claim C5 -/

/-- C5 counterexample: after a spawn failure the error count is 1 while no
job has been collected at all, so the error count does not equal the number
of collected jobs with failing outcome. -/
theorem errcount_collected_counterexample :
    (run ⟨4, false, none, false, false⟩ [⟨"t", .fail "e"⟩]
      (fun _ => 0) 1).errs ≠
    collectedFailCount (run ⟨4, false, none, false, false⟩
      [⟨"t", .fail "e"⟩] (fun _ => 0) 1).trace := by
  decide

/-- C5 amended: at every point of the run, the aggregate error count equals
the number of collected jobs whose outcome is not success plus the number
of spawn failures. -/
theorem errcount_eq_collected_plus_spawn_failures (opts : Options)
    (tasks : List TaskSpec) (oracle : Nat → Nat) (n : Nat) :
    (run opts tasks oracle n).errs =
      collectedFailCount (run opts tasks oracle n).trace
        + spawnErrCount (run opts tasks oracle n).trace :=
  errs_counts_run opts tasks oracle n

/-! ## Claim C6 -/

/-- C6 counterexample: in a verbose run whose single task fails to spawn,
a `start` line is emitted although no spawn succeeded, so `start` lines are
not emitted exactly for the successfully spawned jobs. -/
theorem startline_exact_spawns_counterexample :
    startCount (run ⟨4, false, none, true, false⟩ [⟨"t", .fail "e"⟩]
      (fun _ => 0) 1).trace ≠
    spawnCount (run ⟨4, false, none, true, false⟩ [⟨"t", .fail "e"⟩]
      (fun _ => 0) 1).trace := by
  decide

/-- C6 amended: when verbose is set, a `start` log line is emitted exactly
once per spawn attempt — the line is printed before `command.spawn()` is
called, so spawn failures get one too — and never when verbose is off. -/
theorem startline_counts_spawn_attempts (opts : Options)
    (tasks : List TaskSpec) (oracle : Nat → Nat) (n : Nat) :
    startCount (run opts tasks oracle n).trace =
      (if opts.verbose then
        spawnCount (run opts tasks oracle n).trace
          + spawnErrCount (run opts tasks oracle n).trace
       else 0) :=
  start_counts_run opts tasks oracle n

/-! ## Claim C7 -/

/-- C7: a spawn failure increments the error count by exactly one, leaves
the in-flight list untouched and launches no watcher; in particular a
one-task run whose spawn fails, with keep-going disabled, never has a job
in flight, ends with error count 1, with the last-failing code still at its
default 255, and with final status 255. -/
theorem spawn_failure_one_error :
    (∀ (opts : Options) (tasks : List TaskSpec) (oracle : Nat → Nat)
      (st : MState) (t : TaskSpec) (err : String),
      st.phase = .dispatch → tasks[st.tasknum]? = some t →
      t.res = .fail err → opts.dryrun = false →
        (step opts tasks oracle st).errs = st.errs + 1 ∧
        (step opts tasks oracle st).inflight = st.inflight ∧
        spawnCount (step opts tasks oracle st).trace =
          spawnCount st.trace) ∧
    (∀ n, (run ⟨4, false, none, false, false⟩ [⟨"t", .fail "e"⟩]
        (fun _ => 0) n).inflight = [] ∧
      (run ⟨4, false, none, false, false⟩ [⟨"t", .fail "e"⟩]
        (fun _ => 0) n).errs ≤ 1) ∧
    (run ⟨4, false, none, false, false⟩ [⟨"t", .fail "e"⟩]
      (fun _ => 0) 11).errs = 1 ∧
    (run ⟨4, false, none, false, false⟩ [⟨"t", .fail "e"⟩]
      (fun _ => 0) 11).failedexit = 255 ∧
    main_exit false
      (run ⟨4, false, none, false, false⟩ [⟨"t", .fail "e"⟩]
        (fun _ => 0) 11).errs
      (run ⟨4, false, none, false, false⟩ [⟨"t", .fail "e"⟩]
        (fun _ => 0) 11).failedexit = 255 := by
  refine ⟨?_, ?_, by decide, by decide, by decide⟩
  · intro opts tasks oracle st t err hph ht hres hd
    rw [step_dispatch_fail opts tasks oracle st t err hph ht hd hres]
    refine ⟨rfl, rfl, ?_⟩
    by_cases hv : opts.verbose = true <;> simp [hv]
  · intro n
    rcases Nat.lt_or_ge n 12 with h | h
    · have hb : ∀ m, m < 12 →
          ((run ⟨4, false, none, false, false⟩ [⟨"t", .fail "e"⟩]
            (fun _ => 0) m).inflight = [] ∧
           (run ⟨4, false, none, false, false⟩ [⟨"t", .fail "e"⟩]
            (fun _ => 0) m).errs ≤ 1) := by decide
      exact hb n h
    · have h11 : (run ⟨4, false, none, false, false⟩ [⟨"t", .fail "e"⟩]
          (fun _ => 0) 11).phase = .finished := by decide
      have hn : n = 11 + (n - 11) := by omega
      rw [hn, run_stable _ _ _ 11 h11 (n - 11)]
      exact ⟨by decide, by decide⟩

theorem spawn_failure_one_error_witness :
    (init.phase = Phase.dispatch ∧
     ([(⟨"t", .fail "e"⟩ : TaskSpec)])[init.tasknum]? =
       some ⟨"t", .fail "e"⟩ ∧
     (⟨"t", .fail "e"⟩ : TaskSpec).res = SpawnRes.fail "e" ∧
     (⟨2, false, none, false, false⟩ : Options).dryrun = false) ∧
    (step ⟨2, false, none, false, false⟩ [⟨"t", .fail "e"⟩]
        (fun _ => 0) init).errs = init.errs + 1 ∧
    (step ⟨2, false, none, false, false⟩ [⟨"t", .fail "e"⟩]
        (fun _ => 0) init).inflight = init.inflight ∧
    spawnCount (step ⟨2, false, none, false, false⟩ [⟨"t", .fail "e"⟩]
        (fun _ => 0) init).trace = spawnCount init.trace :=
  ⟨⟨rfl, rfl, rfl, rfl⟩,
    spawn_failure_one_error.1 ⟨2, false, none, false, false⟩
      [⟨"t", .fail "e"⟩] (fun _ => 0) init ⟨"t", .fail "e"⟩ "e"
      rfl rfl rfl rfl⟩

/-! ## Claim C4 -/

theorem show_output_map_stderr (buf : String) (i : Nat) (cmd : String)
    (sep : Bool) :
    (show_output buf i cmd sep).map Wr.toStderr =
      (if buf.length = 0 then []
       else (if sep then [Wr.toStderr (sep_open_line i cmd)] else [])
         ++ [Wr.toStderr buf]
         ++ (if sep then [Wr.toStderr sep_close_line] else [])) := by
  by_cases h : buf.length = 0 <;> by_cases hs : sep = true <;>
    simp [show_output, h, hs]

theorem show_output_map_stdout (buf : String) (i : Nat) (cmd : String) :
    (show_output buf i cmd false).map Wr.toStdout =
      (if buf.length = 0 then [] else [Wr.toStdout buf]) := by
  by_cases h : buf.length = 0 <;> simp [show_output, h]

/-- C4: the aggregate update of the collector, by outcome: a clean exit 0
changes nothing (and logs a `done` line when verbose); a nonzero exit `n`
adds one error and records `n`; a termination by signal `sig` adds one
error and records `128 + sig`; a wait failure adds one error, records 255,
and logs — regardless of verbosity — a warning built from the process id
and the error text. -/
theorem done_job_outcome_update (opts : Options) (job : Job) (errs : Nat)
    (failedexit : Int) :
    (job.waitresult = .ok (.code 0) →
      (done_job opts job errs failedexit).1 = errs ∧
      (done_job opts job errs failedexit).2.1 = failedexit ∧
      (opts.verbose = true →
        Wr.toStderr (done_line job.tasknum job.quotedcmd) ∈
          (done_job opts job errs failedexit).2.2)) ∧
    (∀ n : Int, n ≠ 0 → job.waitresult = .ok (.code n) →
      (done_job opts job errs failedexit).1 = errs + 1 ∧
      (done_job opts job errs failedexit).2.1 = n) ∧
    (∀ sg : Int, job.waitresult = .ok (.signal sg) →
      (done_job opts job errs failedexit).1 = errs + 1 ∧
      (done_job opts job errs failedexit).2.1 = 128 + sg) ∧
    (∀ e : String, job.waitresult = .error e →
      (done_job opts job errs failedexit).1 = errs + 1 ∧
      (done_job opts job errs failedexit).2.1 = 255 ∧
      Wr.toStderr (wait_error_line job.pid e) ∈
        (done_job opts job errs failedexit).2.2) := by
  refine ⟨?_, ?_, ?_, ?_⟩
  · intro h
    refine ⟨by simp [done_job, h], by simp [done_job, h], ?_⟩
    intro hv
    simp [done_job, h, hv]
  · intro n hn h
    exact ⟨by simp [done_job, h, hn], by simp [done_job, h, hn]⟩
  · intro sg h
    exact ⟨by simp [done_job, h], by simp [done_job, h]⟩
  · intro e h
    exact ⟨by simp [done_job, h], by simp [done_job, h], by simp [done_job, h]⟩

theorem done_job_outcome_update_witness :
    ((done_job ⟨1, false, none, true, false⟩
        ⟨0, "c", 5, "", "", .ok (.code 0)⟩ 0 255).1 = 0 ∧
     (done_job ⟨1, false, none, true, false⟩
        ⟨0, "c", 5, "", "", .ok (.code 0)⟩ 0 255).2.1 = 255 ∧
     Wr.toStderr (done_line 0 "c") ∈
       (done_job ⟨1, false, none, true, false⟩
        ⟨0, "c", 5, "", "", .ok (.code 0)⟩ 0 255).2.2) ∧
    ((done_job ⟨1, false, none, true, false⟩
        ⟨0, "c", 5, "", "", .ok (.code 3)⟩ 0 255).1 = 0 + 1 ∧
     (done_job ⟨1, false, none, true, false⟩
        ⟨0, "c", 5, "", "", .ok (.code 3)⟩ 0 255).2.1 = 3) ∧
    ((done_job ⟨1, false, none, true, false⟩
        ⟨0, "c", 5, "", "", .ok (.signal 9)⟩ 0 255).1 = 0 + 1 ∧
     (done_job ⟨1, false, none, true, false⟩
        ⟨0, "c", 5, "", "", .ok (.signal 9)⟩ 0 255).2.1 = 128 + 9) ∧
    ((done_job ⟨1, false, none, true, false⟩
        ⟨0, "c", 5, "", "", .error "e"⟩ 0 255).1 = 0 + 1 ∧
     (done_job ⟨1, false, none, true, false⟩
        ⟨0, "c", 5, "", "", .error "e"⟩ 0 255).2.1 = 255 ∧
     Wr.toStderr (wait_error_line 5 "e") ∈
       (done_job ⟨1, false, none, true, false⟩
        ⟨0, "c", 5, "", "", .error "e"⟩ 0 255).2.2) := by
  refine ⟨?_, ?_, ?_, ?_⟩
  · have h := (done_job_outcome_update ⟨1, false, none, true, false⟩
      ⟨0, "c", 5, "", "", .ok (.code 0)⟩ 0 255).1 rfl
    exact ⟨h.1, h.2.1, h.2.2 rfl⟩
  · exact (done_job_outcome_update ⟨1, false, none, true, false⟩
      ⟨0, "c", 5, "", "", .ok (.code 3)⟩ 0 255).2.1 3 (by decide) rfl
  · exact (done_job_outcome_update ⟨1, false, none, true, false⟩
      ⟨0, "c", 5, "", "", .ok (.signal 9)⟩ 0 255).2.2.1 9 rfl
  · exact (done_job_outcome_update ⟨1, false, none, true, false⟩
      ⟨0, "c", 5, "", "", .error "e"⟩ 0 255).2.2.2 "e" rfl

/-! ## Claim C8 -/

/-- C8: for every collected job, the writes of the collector are: the
captured standard error first (only when non-empty, wrapped in banner lines
exactly when verbose), then the captured standard output (only when
non-empty, never bannered) on the real standard output, then only log
lines, which all go to standard error. -/
theorem stderr_before_stdout_with_banners (opts : Options) (job : Job)
    (errs : Nat) (failedexit : Int) :
    ∃ logs : List Wr,
      (done_job opts job errs failedexit).2.2 =
        (if job.stderrBuf.length = 0 then []
         else (if opts.verbose then
                 [Wr.toStderr (sep_open_line job.tasknum job.quotedcmd)]
               else [])
           ++ [Wr.toStderr job.stderrBuf]
           ++ (if opts.verbose then [Wr.toStderr sep_close_line] else []))
        ++ (if job.stdoutBuf.length = 0 then []
            else [Wr.toStdout job.stdoutBuf])
        ++ logs ∧
      (∀ w ∈ logs, w.isStderr = true) := by
  have he := show_output_map_stderr job.stderrBuf job.tasknum job.quotedcmd
    opts.verbose
  have ho := show_output_map_stdout job.stdoutBuf job.tasknum job.quotedcmd
  cases hw : job.waitresult with
  | ok st =>
    cases st with
    | code c =>
      by_cases hc : c = 0
      · subst hc
        refine ⟨(if opts.verbose then
            [Wr.toStderr (done_line job.tasknum job.quotedcmd)] else []),
          ?_, ?_⟩
        · simp [done_job, hw, he, ho]
        · intro w hwm
          by_cases hv : opts.verbose = true
          · simp [hv] at hwm
            subst hwm
            rfl
          · simp [hv] at hwm
      · refine ⟨(if opts.verbose then
            [Wr.toStderr (exit_line job.tasknum c job.quotedcmd)] else []),
          ?_, ?_⟩
        · simp [done_job, hw, hc, he, ho]
        · intro w hwm
          by_cases hv : opts.verbose = true
          · simp [hv] at hwm
            subst hwm
            rfl
          · simp [hv] at hwm
    | signal sg =>
      refine ⟨(if opts.verbose then
          [Wr.toStderr (signal_line job.tasknum sg job.quotedcmd)] else []),
        ?_, ?_⟩
      · simp [done_job, hw, he, ho]
      · intro w hwm
        by_cases hv : opts.verbose = true
        · simp [hv] at hwm
          subst hwm
          rfl
        · simp [hv] at hwm
  | error e =>
    refine ⟨[Wr.toStderr (wait_error_line job.pid e)], ?_, ?_⟩
    · simp [done_job, hw, he, ho]
    · intro w hwm
      simp at hwm
      subst hwm
      rfl

/-! ## Claim C9 -/

theorem dryTraceAux_take_succ (ts : List TaskSpec) (i m : Nat) (t : TaskSpec)
    (h : ts[m]? = some t) :
    dryTraceAux i (ts.take (m + 1)) =
      dryTraceAux i (ts.take m) ++ [.dryline (i + m) t.display] := by
  induction ts generalizing i m with
  | nil => simp at h
  | cons t0 tr ih =>
    cases m with
    | zero =>
      simp at h
      subst h
      simp [dryTraceAux]
    | succ m =>
      have h' : tr[m]? = some t := by simpa using h
      simp only [List.take_succ_cons, dryTraceAux]
      rw [ih (i + 1) m h']
      have hadd : i + 1 + m = i + (m + 1) := by omega
      simp [hadd]

theorem renderEvent_dryTraceAux (ts : List TaskSpec) (i : Nat) :
    (dryTraceAux i ts).map renderEvent = dryLines i ts := by
  induction ts generalizing i with
  | nil => rfl
  | cons t tr ih => simp [dryTraceAux, dryLines, renderEvent, ih]

theorem spawnCount_dryTraceAux (ts : List TaskSpec) (i : Nat) :
    spawnCount (dryTraceAux i ts) = 0 := by
  induction ts generalizing i with
  | nil => rfl
  | cons t tr ih => simp [dryTraceAux, ih]

/-- The dry-run invariant: no error, nothing in flight, and the trace is
exactly the dry lines of the tasks processed so far. -/
theorem dry_inv (opts : Options) (tasks : List TaskSpec)
    (oracle : Nat → Nat) (hdry : opts.dryrun = true) (n : Nat) :
    (run opts tasks oracle n).errs = 0 ∧
    (run opts tasks oracle n).inflight = [] ∧
    (run opts tasks oracle n).trace =
      dryTraceAux 0
        (tasks.take (dryProgress tasks (run opts tasks oracle n))) := by
  induction n with
  | zero => exact ⟨rfl, rfl, by simp [run, init, dryProgress, dryTraceAux]⟩
  | succ n ih =>
    obtain ⟨ihe, ihi, iht⟩ := ih
    rw [run_succ]
    set st := run opts tasks oracle n with hst
    cases hph : st.phase with
    | dispatch =>
      rw [dryProgress, hph] at iht
      cases ht : tasks[st.tasknum]? with
      | none =>
        rw [step_dispatch_none opts tasks oracle st hph ht]
        refine ⟨ihe, ihi, ?_⟩
        have hlen : tasks.length ≤ st.tasknum := by
          simpa using List.getElem?_eq_none_iff.mp ht
        show st.trace = _
        rw [iht]
        simp [dryProgress, List.take_of_length_le hlen,
          List.take_of_length_le (Nat.le_refl tasks.length)]
      | some t =>
        rw [step_dispatch_dry opts tasks oracle st t hph ht hdry]
        refine ⟨ihe, ihi, ?_⟩
        show st.trace ++ [.dryline st.tasknum t.display] = _
        rw [iht]
        simp only [dryProgress]
        rw [dryTraceAux_take_succ tasks 0 st.tasknum t ht]
        simp
    | throttle =>
      rw [dryProgress, hph] at iht
      rw [step_phase_throttle opts tasks oracle st hph]
      by_cases hc : opts.maxjobs ≤ st.inflight.length
      · rw [if_pos hc, collectOne_nil opts oracle st .errCheck ihi]
        exact ⟨ihe, ihi, by rw [iht]; simp [dryProgress]⟩
      · rw [if_neg hc]
        exact ⟨ihe, ihi, by rw [iht]; simp [dryProgress]⟩
    | errCheck =>
      rw [dryProgress, hph] at iht
      rw [step_phase_errCheck opts tasks oracle st hph]
      have hcond : ¬(0 < st.errs ∧ opts.keepgoing = false) := by
        rw [ihe]
        intro hcon
        exact absurd hcon.1 (by omega)
      rw [if_neg hcond]
      exact ⟨ihe, ihi, by rw [iht]; simp [dryProgress]⟩
    | drain =>
      rw [dryProgress, hph] at iht
      rw [step_drain_nil opts tasks oracle st hph ihi]
      exact ⟨ihe, ihi, by rw [iht]; simp [dryProgress]⟩
    | finished =>
      rw [step_phase_finished opts tasks oracle st hph]
      exact ⟨ihe, ihi, iht⟩

/-- C9: in dry-run mode no process is ever spawned and no slot consumed;
the finished run has printed exactly one `[taskIndex]<TAB>displayString`
line per task, in order, and the final status is 0. -/
theorem dryrun_prints_and_succeeds (opts : Options) (tasks : List TaskSpec)
    (oracle : Nat → Nat) (hdry : opts.dryrun = true) :
    (∀ n, (run opts tasks oracle n).errs = 0 ∧
      (run opts tasks oracle n).inflight = [] ∧
      spawnCount (run opts tasks oracle n).trace = 0) ∧
    (run opts tasks oracle (stepBound tasks)).trace = dryTraceAux 0 tasks ∧
    ((run opts tasks oracle (stepBound tasks)).trace).map renderEvent =
      dryLines 0 tasks ∧
    main_exit opts.keepgoing
      (run opts tasks oracle (stepBound tasks)).errs
      (run opts tasks oracle (stepBound tasks)).failedexit = 0 := by
  have hinv := dry_inv opts tasks oracle hdry
  have hfin := run_reaches_finished opts tasks oracle
  have htr : (run opts tasks oracle (stepBound tasks)).trace =
      dryTraceAux 0 tasks := by
    rw [(hinv (stepBound tasks)).2.2, dryProgress, hfin, List.take_length]
  refine ⟨fun n => ⟨(hinv n).1, (hinv n).2.1, ?_⟩, htr, ?_, ?_⟩
  · rw [(hinv n).2.2]
    exact spawnCount_dryTraceAux _ _
  · rw [htr, renderEvent_dryTraceAux]
  · rw [(hinv (stepBound tasks)).1]
    by_cases hkg : opts.keepgoing = true <;>
      simp [main_exit, i32_of_u32, hkg]

theorem dryrun_prints_and_succeeds_witness :
    ((⟨4, false, none, false, true⟩ : Options).dryrun = true) ∧
    (run ⟨4, false, none, false, true⟩
      [⟨"a", .fail "x"⟩, ⟨"b", .fail "y"⟩] (fun _ => 0)
      (stepBound [⟨"a", .fail "x"⟩, ⟨"b", .fail "y"⟩])).trace =
      dryTraceAux 0 [⟨"a", .fail "x"⟩, ⟨"b", .fail "y"⟩] :=
  ⟨rfl,
    (dryrun_prints_and_succeeds ⟨4, false, none, false, true⟩
      [⟨"a", .fail "x"⟩, ⟨"b", .fail "y"⟩] (fun _ => 0) rfl).2.1⟩

/-! ## Claim C10 -/

theorem build_argv_foldl (tasknum : Nat) (task : List Char)
    (args : List (List Char)) :
    ∀ (acc : List (List Char)) (flag : Bool),
      args.foldl (fun (acc : List (List Char) × Bool) arg =>
        match subst arg tasknum task with
        | some substarg => (acc.1 ++ [substarg], true)
        | none => (acc.1 ++ [arg], acc.2)) (acc, flag) =
      (acc ++ args.map (fun a => (subst a tasknum task).getD a),
       flag || args.any (fun a => (subst a tasknum task).isSome)) := by
  induction args with
  | nil => intro acc flag; simp
  | cons a tr ih =>
    intro acc flag
    cases hs : subst a tasknum task with
    | none => simp [List.foldl_cons, hs, ih]
    | some v => simp [List.foldl_cons, hs, ih]

/-- C10: if no command argument contains a recognized substitution token,
the raw task string is appended as the final element of the built argument
vector; if at least one does, the task string is not appended — the argv is
the initial part followed by the substituted arguments only. -/
theorem build_argv_appends_task (opts : Options) (cmd : List Char)
    (cmdargs : List (List Char)) (tasknum : Nat) (task : List Char) :
    ((∀ a ∈ cmdargs, subst a tasknum task = none) →
      build_argv opts cmd cmdargs tasknum task =
        initial_argv opts cmd ++ cmdargs ++ [task]) ∧
    ((∃ a ∈ cmdargs, (subst a tasknum task).isSome) →
      build_argv opts cmd cmdargs tasknum task =
        initial_argv opts cmd
          ++ cmdargs.map (fun a => (subst a tasknum task).getD a)) := by
  constructor
  · intro hall
    have hmap : cmdargs.map (fun a => (subst a tasknum task).getD a)
        = cmdargs := by
      conv_rhs => rw [← List.map_id cmdargs]
      refine List.map_congr_left ?_
      intro a ha
      rw [hall a ha]
      rfl
    have hany : cmdargs.any (fun a => (subst a tasknum task).isSome)
        = false := by
      rw [List.any_eq_false]
      intro a ha
      rw [hall a ha]
      simp
    simp only [build_argv, build_argv_foldl, hmap, hany]
    simp
  · intro hsome
    have hany : cmdargs.any (fun a => (subst a tasknum task).isSome)
        = true := by
      rw [List.any_eq_true]
      obtain ⟨a, ha, hs⟩ := hsome
      exact ⟨a, ha, hs⟩
    simp only [build_argv, build_argv_foldl, hany]
    simp

theorem build_argv_appends_task_witness :
    ((∀ a ∈ [("-n".toList)], subst a 0 ("T".toList) = none) ∧
      build_argv ⟨1, false, none, false, false⟩ ("echo".toList)
          [("-n".toList)] 0 ("T".toList) =
        initial_argv ⟨1, false, none, false, false⟩ ("echo".toList)
          ++ [("-n".toList)] ++ [("T".toList)]) ∧
    ((∃ a ∈ [['{', '}']], (subst a 0 ['T']).isSome) ∧
      build_argv ⟨1, false, none, false, false⟩ ("echo".toList)
          [['{', '}']] 0 ['T'] =
        initial_argv ⟨1, false, none, false, false⟩ ("echo".toList)
          ++ [['{', '}']].map (fun a => (subst a 0 ['T']).getD a)) := by
  have h1 : ∀ a ∈ [("-n".toList)], subst a 0 ("T".toList) = none := by
    intro a ha
    simp at ha
    subst ha
    simp [subst, substLoop]
  have h2 : ∃ a ∈ [['{', '}']], (subst a 0 ['T']).isSome := by
    refine ⟨['{', '}'], by simp, by simp [subst, substLoop]⟩
  exact ⟨⟨h1, (build_argv_appends_task ⟨1, false, none, false, false⟩
        ("echo".toList) [("-n".toList)] 0 ("T".toList)).1 h1⟩,
    ⟨h2, (build_argv_appends_task ⟨1, false, none, false, false⟩
        ("echo".toList) [['{', '}']] 0 ['T']).2 h2⟩⟩

end Ljobs
